import Mathlib

set_option maxHeartbeats 1000000
set_option maxRecDepth 100000

/- Verification development for the MSU2 serial display driver
   (source file MSU2-LINUX-1.py).  The definitions below are a shallow
   embedding of the device protocol layer of that program: the frame
   compression encoder Screen_Date_Process, the command builders, the
   serial exchange SER_rw with its bounded retry read, the connection
   state setter set_device_state, the post authentication device
   initialization and the connected branch of the daemon loop.
   Serial input and output effects are made explicit: the outcome of one
   exchange is drawn from an environment value, and each function returns
   the bytes actually written to the wire together with the new shared
   state. -/

namespace MSU2

/-- Source digit_to_ints: split a 32 bit integer into its 4 bytes,
    most significant first (shift right by 24, 16, 8, 0, masked to a byte). -/
def digit_to_ints (di : Nat) : List Nat :=
  [di / 16777216 % 256, di / 65536 % 256, di / 256 % 256, di % 256]

/-- One entry of cmp_use: the source computes
    data_w[0::2] shifted left by 16 bits, or-ed with data_w[1::2],
    in numpy uint32 arithmetic, hence the reduction modulo 2 to the 32. -/
def pack2 (a b : Nat) : Nat := (a * 65536) % 4294967296 ||| b

/-- cmp_use for a whole page: pair adjacent entries front to back. -/
def pack_pairs : List Nat → List Nat
  | a :: b :: rest => pack2 a b :: pack_pairs rest
  | _ => []

/-- np.unique of the page values: the distinct values in ascending order. -/
def np_unique (l : List Nat) : List Nat :=
  (List.insertionSort (fun a b => a ≤ b) l).dedup

/-- Scan step of np argmax: strictly larger values displace the running
    best, so the first index attaining the maximum wins. -/
def argmaxAux : Nat → Nat → Nat → List Nat → Nat
  | _, bi, _, [] => bi
  | b, bi, i, x :: xs => if b < x then argmaxAux x i (i + 1) xs else argmaxAux b bi (i + 1) xs

/-- np argmax: index of the first occurrence of the maximum (0 on empty). -/
def argmaxIdx : List Nat → Nat
  | [] => 0
  | x :: xs => argmaxAux x 0 1 xs

/-- Source expression u[c.argmax()] with u, c = np.unique(cmp_use,
    return_counts=True): the unique value whose occurrence count comes
    first among the maxima of the count array. -/
def bgSelect (l : List Nat) : Nat :=
  (np_unique l).getD (argmaxIdx ((np_unique l).map (fun v => l.count v))) 0

/-- The write commands of a full page: for every index whose packed value
    differs from the chosen background, the bytes 4, index, value. -/
def writeCmds (bg : Nat) : Nat → List Nat → List Nat
  | _, [] => []
  | i, v :: rest =>
      (if v ≠ bg then 4 :: i :: digit_to_ints v else []) ++ writeCmds bg (i + 1) rest

/-- The write commands of the trailing partial page: one command for every
    index, no comparison against a background. -/
def writeAll : Nat → List Nat → List Nat
  | _, [] => []
  | i, v :: rest => 4 :: i :: digit_to_ints v ++ writeAll (i + 1) rest

/-- Byte stream emitted for one full page of 128 pixel entries:
    fill background command, write commands, full page flush. -/
def encodeFullPage (page : List Nat) : List Nat :=
  2 :: 4 :: digit_to_ints (bgSelect (pack_pairs page))
    ++ writeCmds (bgSelect (pack_pairs page)) 0 (pack_pairs page)
    ++ [2, 3, 8, 1, 0, 0]

/-- Byte stream emitted for the trailing partial page: the source pads the
    remainder with np.full(128 - remaining, 0xFF, dtype=np.uint32), packs,
    emits a write command for every index, then the partial flush whose
    fifth byte is remaining * 2. -/
def encodePartialPage (rem : List Nat) : List Nat :=
  writeAll 0 (pack_pairs (rem ++ List.replicate (128 - rem.length) 255))
    ++ [2, 3, 8, 0, rem.length * 2, 0]

/-- The loop over the full pages: the source iterates total // 128 times
    over consecutive slices of 128 entries. -/
def SDP_pages : Nat → List Nat → List Nat
  | 0, _ => []
  | n + 1, photo => encodeFullPage (photo.take 128) ++ SDP_pages n (photo.drop 128)

/-- Source Screen_Date_Process: all full pages, then, when the length is
    not a multiple of 128, the partial page built from the last
    length mod 128 entries. -/
def Screen_Date_Process (photo : List Nat) : List Nat :=
  SDP_pages (photo.length / 128) photo
    ++ (if photo.length % 128 = 0 then []
        else encodePartialPage (photo.drop (photo.length - photo.length % 128)))

/-- Decoder step over the emitted byte stream: consume write commands,
    setting the indexed slot to the 4 byte payload, and stop at the first
    byte that does not open a write command. -/
def applyWrites : List Nat → List Nat → List Nat
  | slots, 4 :: i :: b3 :: b2 :: b1 :: b0 :: rest =>
      applyWrites (slots.set i (b3 * 16777216 + b2 * 65536 + b1 * 256 + b0)) rest
  | slots, _ => slots

/-- Decoder for one full page stream: read the fill background command,
    fill all 64 slots with its value, then apply the write commands. -/
def decodePage : List Nat → Option (List Nat)
  | 2 :: 4 :: b3 :: b2 :: b1 :: b0 :: rest =>
      some (applyWrites (List.replicate 64 (b3 * 16777216 + b2 * 65536 + b1 * 256 + b0)) rest)
  | _ => none

/-- Sequential overwrite: the effect of the write commands of one full
    page on a slot list, entry j of l landing at slot k + j unless it
    equals the background. -/
def updSeq : List Nat → Nat → Nat → List Nat → List Nat
  | slots, _, _, [] => slots
  | slots, k, bg, v :: rest =>
      updSeq (if v = bg then slots else slots.set k v) (k + 1) bg rest

/-- The consecutive 128 entry slices taken by the full page loop. -/
def chunk128 : Nat → List Nat → List (List Nat)
  | 0, _ => []
  | n + 1, l => l.take 128 :: chunk128 n (l.drop 128)

/- ----------------------------------------------------------------- -/
/- Transport and connection state machine.                            -/
/- ----------------------------------------------------------------- -/

/-- The observable shared state: the open flag of the serial handle
    (ser.is_open) and the global Device_State flag (0 disconnected,
    1 connected). -/
structure ExchState where
  is_open : Bool
  device_state : Nat
deriving DecidableEq

/-- Outcome of one call of SER_Read inside an exchange: either the retry
    budget of 500000 polls is exhausted and SER_Read returns the sentinel
    0, or a chunk of bytes arrives, or the underlying read raises. -/
inductive ReadOutcome where
  | timeout
  | chunk (bytes : List Nat)
  | ioError
deriving DecidableEq

/-- Environment of one exchange: whether SER_Write succeeds, and the
    successive outcomes of the SER_Read calls.  An exhausted outcome list
    behaves like a timeout, matching a link that stops producing bytes. -/
structure Env where
  writeOk : Bool
  reads : List ReadOutcome
deriving DecidableEq

/-- Source set_device_state: only a genuine change is acted upon, and only
    the transition into state 0 closes the serial handle. -/
def set_device_state (st : ExchState) (state : Nat) : ExchState :=
  if st.device_state ≠ state then
    { device_state := state, is_open := if state = 0 then false else st.is_open }
  else st

/-- Result of SER_rw: the accumulated reply bytes, the shared state after
    the call, and the byte sequences actually written to the wire. -/
structure RwResult where
  result : List Nat
  st : ExchState
  writes : List (List Nat)
deriving DecidableEq

/-- The read loop of SER_rw: repeat SER_Read; the sentinel 0 (timeout)
    returns the bytes gathered so far with the state untouched; a raising
    read closes the handle (except branch) and then runs
    set_device_state 0; a chunk is appended and the loop ends as soon as
    the accumulated length reaches the size argument. -/
def SER_rw_loop (size : Nat) : List Nat → ExchState → List ReadOutcome → List Nat × ExchState
  | acc, st, [] => (acc, st)
  | acc, st, ReadOutcome.timeout :: _ => (acc, st)
  | acc, st, ReadOutcome.ioError :: _ =>
      (acc, set_device_state { st with is_open := false } 0)
  | acc, st, ReadOutcome.chunk bytes :: rest =>
      if size ≤ (acc ++ bytes).length then (acc ++ bytes, st)
      else SER_rw_loop size (acc ++ bytes) st rest

/-- Source SER_rw: on a closed handle return empty at once; a raising
    write closes the handle and runs set_device_state 0; with read=False
    return empty right after the write; otherwise run the read loop.
    The writes field records the wire traffic of the call. -/
def SER_rw (data : List Nat) (read : Bool) (size : Nat) (env : Env) (st : ExchState) :
    RwResult :=
  if st.is_open = false then ⟨[], st, []⟩
  else if env.writeOk = false then
    ⟨[], set_device_state { st with is_open := false } 0, []⟩
  else if read = false then ⟨[], st, [data]⟩
  else
    let p := SER_rw_loop size [] st env.reads
    ⟨p.1, p.2, [data]⟩

/-- Result of a validated command: the returned value, the shared state,
    and the wire traffic. -/
structure CmdResult where
  value : Nat
  st : ExchState
  writes : List (List Nat)
deriving DecidableEq

def SHOW_WIDTH : Nat := 160
def SHOW_HEIGHT : Nat := 80
def WHITE : Nat := 65535
def BLACK : Nat := 0

/-- Source LCD_Set_XY: set origin frame. -/
def LCD_Set_XY (d0 d1 : Nat) : List Nat :=
  [2, 0, d0 / 256, d0 % 256, d1 / 256, d1 % 256]

/-- Source LCD_Set_Size: set size frame. -/
def LCD_Set_Size (d0 d1 : Nat) : List Nat :=
  [2, 1, d0 / 256, d0 % 256, d1 / 256, d1 % 256]

/-- Frame built by LCD_Set_Color. -/
def LCD_Set_Color_cmd (d0 d1 : Nat) : List Nat :=
  [2, 2, d0 / 256, d0 % 256, d1 / 256, d1 % 256]

/-- Source LCD_Set_Color: send the color frame with no response expected. -/
def LCD_Set_Color (d0 d1 : Nat) (env : Env) (st : ExchState) : RwResult :=
  SER_rw (LCD_Set_Color_cmd d0 d1) false 0 env st

/-- The 18 byte frame assembled by LCD_ADD: origin frame, size frame,
    then the address load frame 2 3 7 0 0 0. -/
def LCD_ADD_cmd (x y w h : Nat) : List Nat :=
  LCD_Set_XY x y ++ LCD_Set_Size w h ++ [2, 3, 7, 0, 0, 0]

/-- Source LCD_ADD: one exchange expecting a response; accepted when the
    reply has length above 1 and its first two bytes are 2 and 3;
    otherwise set_device_state 0 and return 0. -/
def LCD_ADD (x y w h : Nat) (env : Env) (st : ExchState) : CmdResult :=
  let r := SER_rw (LCD_ADD_cmd x y w h) true 0 env st
  if 1 < r.result.length ∧ r.result.getD 0 0 = 2 ∧ r.result.getD 1 0 = 3 then
    ⟨1, r.st, r.writes⟩
  else ⟨0, set_device_state r.st 0, r.writes⟩

/-- Frame built by LCD_State (orientation). -/
def LCD_State_cmd (s : Nat) : List Nat := [2, 3, 10, s, 0, 0]

/-- Source LCD_State: accepted when the reply has length above 5 and its
    first two bytes echo the first two command bytes 2 and 3; otherwise
    set_device_state 0 and return 0. -/
def LCD_State (s : Nat) (env : Env) (st : ExchState) : CmdResult :=
  let r := SER_rw (LCD_State_cmd s) true 0 env st
  if 5 < r.result.length ∧ r.result.getD 0 0 = 2 ∧ r.result.getD 1 0 = 3 then
    ⟨1, r.st, r.writes⟩
  else ⟨0, set_device_state r.st 0, r.writes⟩

/-- Frame built by Read_ADC_CH. -/
def Read_ADC_CH_cmd (ch : Nat) : List Nat := [8, ch, 0, 0, 0, 0]

/-- Source Read_ADC_CH: accepted when the reply has length above 5 and its
    first two bytes echo the command bytes 8 and ch, returning the 16 bit
    value from reply bytes 4 and 5; otherwise set_device_state 0 and
    return 0. -/
def Read_ADC_CH (ch : Nat) (env : Env) (st : ExchState) : CmdResult :=
  let r := SER_rw (Read_ADC_CH_cmd ch) true 0 env st
  if 5 < r.result.length ∧ r.result.getD 0 0 = 8 ∧ r.result.getD 1 0 = ch then
    ⟨r.result.getD 4 0 * 256 + r.result.getD 5 0, r.st, r.writes⟩
  else ⟨0, set_device_state r.st 0, r.writes⟩

/-- Result of the post authentication initialization. -/
structure InitResult where
  st : ExchState
  adcDet : Int
deriving DecidableEq

/-- Tail of source Get_MSN_Device after a successful identity check: set
    the orientation (return value not inspected), read ADC channel 9 three
    times, ADC_det = sum // 3 - 200, then set_device_state 1
    unconditionally. -/
def MSN_device_init (flip : Bool) (e1 e2 e3 e4 : Env) (st : ExchState) : InitResult :=
  let dir := if flip then 1 else 0
  let r1 := LCD_State dir e1 st
  let a1 := Read_ADC_CH 9 e2 r1.st
  let a2 := Read_ADC_CH 9 e3 a1.st
  let a3 := Read_ADC_CH 9 e4 a2.st
  let det : Int := (((a1.value + a2.value + a3.value) / 3 : Nat) : Int) - 200
  ⟨set_device_state a3.st 1, det⟩

/-- Result of one connected tick of daemon_task: the final shared state
    and the wire traffic of the three phases (address setup, color
    command, encoded frame). -/
structure TickResult where
  st : ExchState
  addWrites : List (List Nat)
  colorWrites : List (List Nat)
  frameWrites : List (List Nat)
deriving DecidableEq

/-- Connected branch of source daemon_task: LCD_ADD over the full display
    (return value not inspected by the loop), LCD_Set_Color, then
    show_PC_state which sends the encoded frame with no response expected.
    The rendered pixel buffer is the photo argument. -/
def daemon_tick_connected (eAdd eColor eFrame : Env) (photo : List Nat) (st : ExchState) :
    TickResult :=
  let a := LCD_ADD 0 0 SHOW_WIDTH SHOW_HEIGHT eAdd st
  let c := LCD_Set_Color WHITE BLACK eColor a.st
  let f := SER_rw (Screen_Date_Process photo) false 0 eFrame c.st
  ⟨f.st, a.writes, c.writes, f.writes⟩

/- ----------------------------------------------------------------- -/
/- Lemmas about the state setter and the exchange.                    -/
/- ----------------------------------------------------------------- -/

theorem set_device_state_zero_ds (st : ExchState) :
    (set_device_state st 0).device_state = 0 := by
  by_cases h : st.device_state = 0 <;> simp [set_device_state, h]

theorem set_device_state_one_ds (st : ExchState) :
    (set_device_state st 1).device_state = 1 := by
  by_cases h : st.device_state = 1 <;> simp [set_device_state, h]

theorem set_device_state_ne_zero (st : ExchState) (h : st.device_state ≠ 0) :
    set_device_state st 0 = ⟨false, 0⟩ := by
  simp [set_device_state, h]

theorem set_device_state_closed_zero (st : ExchState) :
    set_device_state { st with is_open := false } 0 = ⟨false, 0⟩ := by
  cases st with
  | mk o d => by_cases h : d = 0 <;> simp [set_device_state, h]

/-- The read loop either keeps the shared state untouched or, on a raising
    read, ends in the closed disconnected state. -/
theorem SER_rw_loop_st (size : Nat) (ros : List ReadOutcome) :
    ∀ acc st, (SER_rw_loop size acc st ros).2 = st
      ∨ (SER_rw_loop size acc st ros).2 = ⟨false, 0⟩ := by
  induction ros with
  | nil => intro acc st; left; rfl
  | cons o rest ih =>
    intro acc st
    cases o with
    | timeout => left; rfl
    | ioError =>
      right
      simpa [SER_rw_loop] using set_device_state_closed_zero st
    | chunk bytes =>
      show (if size ≤ (acc ++ bytes).length then (acc ++ bytes, st)
          else SER_rw_loop size (acc ++ bytes) st rest).2 = st
        ∨ (if size ≤ (acc ++ bytes).length then (acc ++ bytes, st)
          else SER_rw_loop size (acc ++ bytes) st rest).2 = ⟨false, 0⟩
      by_cases hsz : size ≤ (acc ++ bytes).length
      · rw [if_pos hsz]; left; rfl
      · rw [if_neg hsz]; exact ih (acc ++ bytes) st

/-- One exchange either keeps the shared state untouched or ends in the
    closed disconnected state. -/
theorem SER_rw_st_cases (data : List Nat) (rd : Bool) (size : Nat) (env : Env)
    (st : ExchState) :
    (SER_rw data rd size env st).st = st
      ∨ (SER_rw data rd size env st).st = ⟨false, 0⟩ := by
  unfold SER_rw
  by_cases h1 : st.is_open = false
  · simp [h1]
  · by_cases h2 : env.writeOk = false
    · simp [h1, h2, set_device_state_closed_zero]
    · by_cases h3 : rd = false
      · simp [h1, h2, h3]
      · simpa [h1, h2, h3] using SER_rw_loop_st size env.reads [] st

/- ----------------------------------------------------------------- -/
/- Claim C1.                                                          -/
/- ----------------------------------------------------------------- -/

/-- Claim C1 as stated is false at this concrete input: an exchange on an
    open connected transport whose required response never arrives (read
    retry budget exhausted) returns the empty result but leaves
    Device_State at 1 and the handle open, because the timeout branch of
    SER_rw returns before the disconnect postlude of the function. -/
theorem C1_counterexample :
    (SER_rw [2, 0] true 6 ⟨true, [ReadOutcome.timeout]⟩ ⟨true, 1⟩).result = []
    ∧ (SER_rw [2, 0] true 6 ⟨true, [ReadOutcome.timeout]⟩ ⟨true, 1⟩).st.device_state = 1
    ∧ (SER_rw [2, 0] true 6 ⟨true, [ReadOutcome.timeout]⟩ ⟨true, 1⟩).st.is_open = true := by
  decide

/-- Claim C1 amended: an exchange that fails with an I/O exception, during
    the write or on the first read, marks Device_State 0 and closes the
    handle; exhaustion of the read retry budget instead yields the empty
    result and leaves the shared state untouched; in every case the state
    after the exchange is either unchanged or the closed disconnected
    state. -/
theorem C1_transport_failure (data : List Nat) (rd : Bool) (size : Nat) (env : Env)
    (st : ExchState) (h : st.is_open = true) :
    ((SER_rw data rd size env st).st = st
      ∨ (SER_rw data rd size env st).st = ⟨false, 0⟩)
    ∧ (env.writeOk = false →
        (SER_rw data rd size env st).st = ⟨false, 0⟩
        ∧ (SER_rw data rd size env st).result = [])
    ∧ (∀ tl, env.writeOk = true → rd = true → env.reads = ReadOutcome.ioError :: tl →
        (SER_rw data rd size env st).st = ⟨false, 0⟩)
    ∧ (∀ tl, env.writeOk = true → rd = true → env.reads = ReadOutcome.timeout :: tl →
        (SER_rw data rd size env st).st = st
        ∧ (SER_rw data rd size env st).result = []) := by
  refine ⟨SER_rw_st_cases data rd size env st, ?_, ?_, ?_⟩
  · intro hw
    simp [SER_rw, h, hw, set_device_state_closed_zero]
  · intro tl hw hr hreads
    simp [SER_rw, h, hw, hr, hreads, SER_rw_loop, set_device_state_closed_zero]
  · intro tl hw hr hreads
    simp [SER_rw, h, hw, hr, hreads, SER_rw_loop]

theorem C1_transport_failure_witness :
    (SER_rw [2, 0] true 0 ⟨false, []⟩ ⟨true, 1⟩).st = ⟨false, 0⟩
    ∧ (SER_rw [2, 0] true 0 ⟨false, []⟩ ⟨true, 1⟩).result = [] :=
  (C1_transport_failure [2, 0] true 0 ⟨false, []⟩ ⟨true, 1⟩ rfl).2.1 rfl

/- ----------------------------------------------------------------- -/
/- Claim C2.                                                          -/
/- ----------------------------------------------------------------- -/

/-- Claim C2 against the code: the tail of Get_MSN_Device runs
    set_device_state 1 unconditionally after the four initialization
    exchanges, so Device_State ends at 1 (Connected) for every outcome of
    those exchanges; in particular, at the concrete input below the
    orientation exchange fails (LCD_State returns 0 after a read timeout)
    and the initialization still ends Connected, contradicting the
    stated behavior of leaving the state Disconnected. -/
theorem C2_init_always_connects :
    (∀ flip e1 e2 e3 e4 st, (MSN_device_init flip e1 e2 e3 e4 st).st.device_state = 1)
    ∧ (LCD_State 1 ⟨true, [ReadOutcome.timeout]⟩ ⟨true, 0⟩).value = 0
    ∧ (MSN_device_init true ⟨true, [ReadOutcome.timeout]⟩ ⟨true, [ReadOutcome.timeout]⟩
        ⟨true, [ReadOutcome.timeout]⟩ ⟨true, [ReadOutcome.timeout]⟩
        ⟨true, 0⟩).st.device_state = 1 := by
  refine ⟨?_, by decide, by decide⟩
  intro flip e1 e2 e3 e4 st
  simp [MSN_device_init, set_device_state_one_ds]

/- ----------------------------------------------------------------- -/
/- Claim C3.                                                          -/
/- ----------------------------------------------------------------- -/

/-- Claim C3 as stated is false at this concrete input: calling the state
    setter with 0 while the state is already 0 but the handle is open
    (the situation of every discovery time failure path) leaves the
    handle open, because set_device_state only acts on a genuine change. -/
theorem C3_counterexample :
    (set_device_state ⟨true, 0⟩ 0).is_open = true := by decide

/-- Claim C3 amended: a call of the setter that actually transitions the
    state (from a nonzero state) to Disconnected closes the handle; only
    the degenerate call on an already disconnected state can leave the
    handle open. -/
theorem C3_transition_closes (st : ExchState) (h : st.device_state ≠ 0) :
    (set_device_state st 0).is_open = false
    ∧ (set_device_state st 0).device_state = 0 := by
  simp [set_device_state, h]

theorem C3_transition_closes_witness :
    (set_device_state ⟨true, 1⟩ 0).is_open = false
    ∧ (set_device_state ⟨true, 1⟩ 0).device_state = 0 :=
  C3_transition_closes ⟨true, 1⟩ (by decide)

/- ----------------------------------------------------------------- -/
/- Claim C5.                                                          -/
/- ----------------------------------------------------------------- -/

/-- Claim C5 as stated is false at this concrete input: LCD_ADD sends an
    18 byte command whose first two bytes are 2 and 0 (the origin frame),
    yet it accepts the reply 2, 3 - which does not echo those first two
    command bytes; the accepted prefix is the header of the address load
    frame, not of the command as sent. -/
theorem C5_counterexample :
    (SER_rw (LCD_ADD_cmd 0 0 160 80) true 0 ⟨true, [ReadOutcome.chunk [2, 3]]⟩
        ⟨true, 1⟩).result = [2, 3]
    ∧ (LCD_ADD 0 0 160 80 ⟨true, [ReadOutcome.chunk [2, 3]]⟩ ⟨true, 1⟩).value = 1
    ∧ (LCD_ADD_cmd 0 0 160 80).take 2 = [2, 0]
    ∧ ([2, 3] : List Nat) ≠ [2, 0] := by decide

/-- Unfolding equation of LCD_ADD, spelled with the exact acceptance
    condition of the source. -/
theorem LCD_ADD_eq (x y w h : Nat) (env : Env) (st : ExchState) :
    LCD_ADD x y w h env st
      = if 1 < (SER_rw (LCD_ADD_cmd x y w h) true 0 env st).result.length
            ∧ (SER_rw (LCD_ADD_cmd x y w h) true 0 env st).result.getD 0 0 = 2
            ∧ (SER_rw (LCD_ADD_cmd x y w h) true 0 env st).result.getD 1 0 = 3
        then ⟨1, (SER_rw (LCD_ADD_cmd x y w h) true 0 env st).st,
          (SER_rw (LCD_ADD_cmd x y w h) true 0 env st).writes⟩
        else ⟨0, set_device_state (SER_rw (LCD_ADD_cmd x y w h) true 0 env st).st 0,
          (SER_rw (LCD_ADD_cmd x y w h) true 0 env st).writes⟩ := rfl

/-- Claim C5 amended: LCD_ADD accepts a response exactly when it has
    length at least 2 and its first two bytes are 2 and 3, the first two
    bytes of the trailing address load frame (command bytes 12 and 13);
    on mismatch it runs set_device_state 0 and returns 0. -/
theorem C5_accepts_address_load_echo (x y w h : Nat) (env : Env) (st : ExchState) :
    ((LCD_ADD x y w h env st).value = 1
      ↔ 1 < (SER_rw (LCD_ADD_cmd x y w h) true 0 env st).result.length
        ∧ (SER_rw (LCD_ADD_cmd x y w h) true 0 env st).result.getD 0 0 = 2
        ∧ (SER_rw (LCD_ADD_cmd x y w h) true 0 env st).result.getD 1 0 = 3)
    ∧ ((LCD_ADD x y w h env st).value ≠ 1 →
        (LCD_ADD x y w h env st).value = 0
        ∧ (LCD_ADD x y w h env st).st.device_state = 0)
    ∧ (LCD_ADD_cmd x y w h).drop 12 = [2, 3, 7, 0, 0, 0] := by
  by_cases hc : 1 < (SER_rw (LCD_ADD_cmd x y w h) true 0 env st).result.length
      ∧ (SER_rw (LCD_ADD_cmd x y w h) true 0 env st).result.getD 0 0 = 2
      ∧ (SER_rw (LCD_ADD_cmd x y w h) true 0 env st).result.getD 1 0 = 3
  · rw [LCD_ADD_eq, if_pos hc]
    exact ⟨iff_of_true rfl hc, fun hne => absurd rfl hne, rfl⟩
  · rw [LCD_ADD_eq, if_neg hc]
    refine ⟨iff_of_false (by simp) hc, fun _ => ⟨rfl, set_device_state_zero_ds _⟩, rfl⟩

theorem C5_accepts_address_load_echo_witness :
    (LCD_ADD 0 0 160 80 ⟨true, [ReadOutcome.timeout]⟩ ⟨true, 1⟩).value = 0
    ∧ (LCD_ADD 0 0 160 80 ⟨true, [ReadOutcome.timeout]⟩ ⟨true, 1⟩).st.device_state = 0 :=
  (C5_accepts_address_load_echo 0 0 160 80 ⟨true, [ReadOutcome.timeout]⟩
    ⟨true, 1⟩).2.1 (by decide)

/- ----------------------------------------------------------------- -/
/- Claim C6.                                                          -/
/- ----------------------------------------------------------------- -/

/-- A failing LCD_ADD from a state with nonzero Device_State ends in the
    closed disconnected state. -/
theorem LCD_ADD_fail_st (x y w h : Nat) (env : Env) (st : ExchState)
    (hds : st.device_state ≠ 0) (hv : (LCD_ADD x y w h env st).value = 0) :
    (LCD_ADD x y w h env st).st = ⟨false, 0⟩ := by
  by_cases hc : 1 < (SER_rw (LCD_ADD_cmd x y w h) true 0 env st).result.length
      ∧ (SER_rw (LCD_ADD_cmd x y w h) true 0 env st).result.getD 0 0 = 2
      ∧ (SER_rw (LCD_ADD_cmd x y w h) true 0 env st).result.getD 1 0 = 3
  · rw [LCD_ADD_eq, if_pos hc] at hv
    exact absurd hv (by simp)
  · rw [LCD_ADD_eq, if_neg hc]
    rcases SER_rw_st_cases (LCD_ADD_cmd x y w h) true 0 env st with hst | hst
    · show set_device_state (SER_rw (LCD_ADD_cmd x y w h) true 0 env st).st 0 = _
      rw [hst]
      exact set_device_state_ne_zero st hds
    · show set_device_state (SER_rw (LCD_ADD_cmd x y w h) true 0 env st).st 0 = _
      rw [hst]
      simp [set_device_state]

/-- Claim C6: in the connected state, a validation failure of LCD_ADD
    during a tick sets Device_State 0 and closes the handle, and because
    every later send of the tick finds the handle closed, neither the set
    colors command nor the encoded frame reaches the wire on that tick. -/
theorem C6_tick_fail_sends_nothing (eA eC eF : Env) (photo : List Nat) (st : ExchState)
    (hds : st.device_state = 1)
    (hfail : (LCD_ADD 0 0 SHOW_WIDTH SHOW_HEIGHT eA st).value = 0) :
    (daemon_tick_connected eA eC eF photo st).st = ⟨false, 0⟩
    ∧ (daemon_tick_connected eA eC eF photo st).colorWrites = []
    ∧ (daemon_tick_connected eA eC eF photo st).frameWrites = [] := by
  have ha : (LCD_ADD 0 0 SHOW_WIDTH SHOW_HEIGHT eA st).st = ⟨false, 0⟩ :=
    LCD_ADD_fail_st 0 0 SHOW_WIDTH SHOW_HEIGHT eA st (by simp [hds]) hfail
  simp [daemon_tick_connected, ha, LCD_Set_Color, SER_rw]

theorem C6_tick_fail_sends_nothing_witness :
    (daemon_tick_connected ⟨true, [ReadOutcome.timeout]⟩ ⟨true, []⟩ ⟨true, []⟩ []
        ⟨true, 1⟩).st = ⟨false, 0⟩
    ∧ (daemon_tick_connected ⟨true, [ReadOutcome.timeout]⟩ ⟨true, []⟩ ⟨true, []⟩ []
        ⟨true, 1⟩).colorWrites = []
    ∧ (daemon_tick_connected ⟨true, [ReadOutcome.timeout]⟩ ⟨true, []⟩ ⟨true, []⟩ []
        ⟨true, 1⟩).frameWrites = [] :=
  C6_tick_fail_sends_nothing ⟨true, [ReadOutcome.timeout]⟩ ⟨true, []⟩ ⟨true, []⟩ []
    ⟨true, 1⟩ rfl (by decide)

/- ----------------------------------------------------------------- -/
/- Structure of the encoder output.                                   -/
/- ----------------------------------------------------------------- -/

theorem pack_pairs_length : ∀ l : List Nat, (pack_pairs l).length = l.length / 2
  | [] => rfl
  | [_] => by simp [pack_pairs]
  | a :: b :: r => by
      simp only [pack_pairs, List.length_cons, pack_pairs_length r]
      omega

/-- Running the full page loop on the truncation of the buffer to the
    consumed prefix yields the same bytes. -/
theorem SDP_pages_take : ∀ (n : Nat) (l : List Nat), 128 * n ≤ l.length →
    SDP_pages n (l.take (128 * n)) = SDP_pages n l := by
  intro n
  induction n with
  | zero => intro l _; rfl
  | succ n ih =>
    intro l hlen
    have h1 : (l.take (128 * (n + 1))).take 128 = l.take 128 := by
      rw [List.take_take]
      congr 1
      omega
    have h2 : (l.take (128 * (n + 1))).drop 128 = (l.drop 128).take (128 * n) := by
      rw [List.drop_take]
      congr 1
    show encodeFullPage ((l.take (128 * (n + 1))).take 128)
        ++ SDP_pages n ((l.take (128 * (n + 1))).drop 128)
      = encodeFullPage (l.take 128) ++ SDP_pages n (l.drop 128)
    rw [h1, h2, ih (l.drop 128) (by rw [List.length_drop]; omega)]

/-- The full page loop emits exactly the full page encodings of the
    consecutive 128 entry slices. -/
theorem SDP_pages_eq_join : ∀ (n : Nat) (l : List Nat),
    SDP_pages n l = ((chunk128 n l).map encodeFullPage).join := by
  intro n
  induction n with
  | zero => intro l; rfl
  | succ n ih => intro l; simp [SDP_pages, chunk128, ih]

/-- On a buffer whose length is a multiple of 128 the encoder takes only
    the full page path. -/
theorem SDP_multiple (l : List Nat) (h : l.length % 128 = 0) :
    Screen_Date_Process l = SDP_pages (l.length / 128) l := by
  unfold Screen_Date_Process
  rw [if_pos h]
  simp

/-- On a buffer whose length is not a multiple of 128 the encoder output
    splits into the encoding of the longest full page prefix and the
    partial page of the remainder. -/
theorem SDP_partial_decomp (photo : List Nat) (h : photo.length % 128 ≠ 0) :
    Screen_Date_Process photo
      = Screen_Date_Process (photo.take (photo.length - photo.length % 128))
        ++ encodePartialPage (photo.drop (photo.length - photo.length % 128)) := by
  have hq : photo.length - photo.length % 128 = 128 * (photo.length / 128) := by omega
  have htlen : (photo.take (photo.length - photo.length % 128)).length
      = 128 * (photo.length / 128) := by
    rw [List.length_take]
    omega
  have ht0 : (photo.take (photo.length - photo.length % 128)).length % 128 = 0 := by
    rw [htlen]; omega
  have hR : Screen_Date_Process (photo.take (photo.length - photo.length % 128))
      = SDP_pages (photo.length / 128) photo := by
    rw [SDP_multiple _ ht0, htlen]
    have hd : 128 * (photo.length / 128) / 128 = photo.length / 128 := by omega
    rw [hd, hq]
    exact SDP_pages_take (photo.length / 128) photo (by omega)
  have hL : Screen_Date_Process photo
      = SDP_pages (photo.length / 128) photo
        ++ encodePartialPage (photo.drop (photo.length - photo.length % 128)) := by
    unfold Screen_Date_Process
    rw [if_neg h]
  rw [hL, hR]

/-- Shared form of the partial page output: write command block over the
    0xFF padded remainder, then the partial flush carrying the byte count
    of the meaningful entries. -/
theorem SDP_partial_flush (photo : List Nat) (h : photo.length % 128 ≠ 0) :
    Screen_Date_Process photo
      = (Screen_Date_Process (photo.take (photo.length - photo.length % 128))
          ++ writeAll 0 (pack_pairs (photo.drop (photo.length - photo.length % 128)
              ++ List.replicate (128 - photo.length % 128) 255)))
        ++ [2, 3, 8, 0, photo.length % 128 * 2, 0] := by
  rw [SDP_partial_decomp photo h]
  have hdlen : (photo.drop (photo.length - photo.length % 128)).length
      = photo.length % 128 := by
    rw [List.length_drop]
    omega
  rw [encodePartialPage, hdlen, List.append_assoc]

/- ----------------------------------------------------------------- -/
/- Claim C4.                                                          -/
/- ----------------------------------------------------------------- -/

/-- Claim C4 as stated is false at its own concrete input: for the 130
    entry buffer the source pads the remainder with the byte value 0xFF
    (np.full third argument 0xFF, not 0xFFFF), so the output differs from
    the claimed encoding whose padding is the 16 bit value 0xFFFF. -/
theorem C4_counterexample :
    Screen_Date_Process (List.replicate 130 0)
      ≠ Screen_Date_Process (List.replicate 128 0)
        ++ writeAll 0 (pack_pairs (List.replicate 2 0 ++ List.replicate 126 65535))
        ++ [2, 3, 8, 0, 4, 0] := by decide

/-- Claim C4 amended: the trailing partial page is padded to 128 entries
    with the value 0xFF (255) - not 0xFFFF - then packed in pairs; a write
    command is emitted for every packed index and the partial flush byte
    count field is (length mod 128) * 2, hence 4 for a 130 entry buffer. -/
theorem C4_partial_pad_byte (photo : List Nat) (h : photo.length % 128 ≠ 0) :
    Screen_Date_Process photo
      = (Screen_Date_Process (photo.take (photo.length - photo.length % 128))
          ++ writeAll 0 (pack_pairs (photo.drop (photo.length - photo.length % 128)
              ++ List.replicate (128 - photo.length % 128) 255)))
        ++ [2, 3, 8, 0, photo.length % 128 * 2, 0] :=
  SDP_partial_flush photo h

theorem C4_partial_pad_byte_witness :
    Screen_Date_Process (List.replicate 130 0)
      = (Screen_Date_Process ((List.replicate 130 0).take
            ((List.replicate 130 0).length - (List.replicate 130 0).length % 128))
          ++ writeAll 0 (pack_pairs ((List.replicate 130 0).drop
                ((List.replicate 130 0).length - (List.replicate 130 0).length % 128)
              ++ List.replicate (128 - (List.replicate 130 0).length % 128) 255)))
        ++ [2, 3, 8, 0, (List.replicate 130 0).length % 128 * 2, 0] :=
  C4_partial_pad_byte (List.replicate 130 0) (by decide)

/- ----------------------------------------------------------------- -/
/- Claim C9.                                                          -/
/- ----------------------------------------------------------------- -/

/-- Claim C9: when the buffer length is not a multiple of 128 the output
    ends with the partial flush command whose byte count field is
    (length mod 128) * 2; when it is a multiple, the output consists of
    the full page encodings of the 128 entry slices alone, with no
    partial page command. -/
theorem C9_partial_sizing (photo : List Nat) :
    (photo.length % 128 ≠ 0 →
      ∃ pre, Screen_Date_Process photo = pre ++ [2, 3, 8, 0, photo.length % 128 * 2, 0])
    ∧ (photo.length % 128 = 0 →
      Screen_Date_Process photo
        = ((chunk128 (photo.length / 128) photo).map encodeFullPage).join) := by
  constructor
  · intro h
    exact ⟨_, SDP_partial_flush photo h⟩
  · intro h
    rw [SDP_multiple photo h, SDP_pages_eq_join]

theorem C9_partial_sizing_witness :
    (∃ pre, Screen_Date_Process [1, 2] = pre ++ [2, 3, 8, 0, 4, 0])
    ∧ Screen_Date_Process (List.replicate 128 3)
        = ((chunk128 1 (List.replicate 128 3)).map encodeFullPage).join := by
  constructor
  · have h := (C9_partial_sizing [1, 2]).1 (by decide)
    simpa using h
  · have h := (C9_partial_sizing (List.replicate 128 3)).2 (by decide)
    simpa using h

/- ----------------------------------------------------------------- -/
/- Background selection: characterization of u[c.argmax()].           -/
/- ----------------------------------------------------------------- -/

theorem getD_mem (u : List Nat) : ∀ j : Nat, j < u.length → u.getD j 0 ∈ u := by
  induction u with
  | nil => intro j hj; simp at hj
  | cons x xs ih =>
    intro j hj
    cases j with
    | zero => simp
    | succ j =>
      simp only [List.getD_cons_succ]
      exact List.mem_cons_of_mem x (ih j (by simpa using hj))

theorem mem_getD (u : List Nat) (a : Nat) (ha : a ∈ u) :
    ∃ j, j < u.length ∧ u.getD j 0 = a := by
  induction u with
  | nil => simp at ha
  | cons x xs ih =>
    rcases List.mem_cons.mp ha with h | h
    · exact ⟨0, by simp, by simp [h]⟩
    · rcases ih h with ⟨j, hj, hja⟩
      exact ⟨j + 1, by simpa using hj, by simpa using hja⟩

theorem count_map_getD (l : List Nat) : ∀ (u : List Nat) (j : Nat), j < u.length →
    (u.map (fun v => l.count v)).getD j 0 = l.count (u.getD j 0) := by
  intro u
  induction u with
  | nil => intro j hj; simp at hj
  | cons x xs ih =>
    intro j hj
    cases j with
    | zero => rfl
    | succ j =>
      simp only [List.map_cons, List.getD_cons_succ]
      exact ih j (by simpa using hj)

theorem np_unique_sorted (l : List Nat) :
    List.Sorted (fun a b => a ≤ b) (np_unique l) :=
  (List.sorted_insertionSort _ l).sublist (List.dedup_sublist _)

theorem np_unique_mem (l : List Nat) (a : Nat) : a ∈ np_unique l ↔ a ∈ l := by
  unfold np_unique
  rw [List.mem_dedup]
  exact (List.perm_insertionSort _ l).mem_iff

theorem np_unique_ne_nil (l : List Nat) (hl : l ≠ []) : np_unique l ≠ [] := by
  intro h
  rcases List.exists_mem_of_ne_nil l hl with ⟨a, ha⟩
  have hm : a ∈ np_unique l := (np_unique_mem l a).mpr ha
  rw [h] at hm
  simp at hm

theorem sorted_getD_le (u : List Nat) (hs : List.Sorted (fun a b => a ≤ b) u)
    (i j : Nat) (hij : i ≤ j) (hj : j < u.length) : u.getD i 0 ≤ u.getD j 0 := by
  rw [List.getD_eq_get u 0 (lt_of_le_of_lt hij hj), List.getD_eq_get u 0 hj]
  exact hs.rel_get_of_le (Fin.mk_le_mk.mpr hij)

/-- Full characterization of the argmax scan: either nothing beats the
    running best and its index is returned, or the first maximum of the
    remaining list wins. -/
theorem argmaxAux_spec : ∀ (xs : List Nat) (b bi i : Nat),
    (argmaxAux b bi i xs = bi ∧ ∀ x ∈ xs, x ≤ b)
    ∨ (∃ k, k < xs.length ∧ argmaxAux b bi i xs = i + k ∧ b < xs.getD k 0
        ∧ (∀ m, m < xs.length → xs.getD m 0 ≤ xs.getD k 0)
        ∧ (∀ m, m < k → xs.getD m 0 < xs.getD k 0)) := by
  intro xs
  induction xs with
  | nil => intro b bi i; left; exact ⟨rfl, by simp⟩
  | cons x xs ih =>
    intro b bi i
    by_cases hbx : b < x
    · have hstep : argmaxAux b bi i (x :: xs) = argmaxAux x i (i + 1) xs := by
        simp [argmaxAux, hbx]
      rcases ih x i (i + 1) with ⟨heq, hall⟩ | ⟨k, hk, heq, hlt, hmax, hfirst⟩
      · right
        refine ⟨0, by simp, by rw [hstep, heq]; omega, by simpa using hbx, ?_, ?_⟩
        · intro m hm
          cases m with
          | zero => simp
          | succ m =>
            simp only [List.getD_cons_succ, List.getD_cons_zero]
            exact hall _ (getD_mem xs m (by simpa using hm))
        · intro m hm
          exact absurd hm (Nat.not_lt_zero m)
      · right
        refine ⟨k + 1, by simpa using hk, ?_, ?_, ?_, ?_⟩
        · rw [hstep, heq]; omega
        · simpa using lt_trans hbx hlt
        · intro m hm
          cases m with
          | zero => simpa using le_of_lt hlt
          | succ m => simpa using hmax m (by simpa using hm)
        · intro m hm
          cases m with
          | zero => simpa using hlt
          | succ m => simpa using hfirst m (by omega)
    · have hstep : argmaxAux b bi i (x :: xs) = argmaxAux b bi (i + 1) xs := by
        simp [argmaxAux, hbx]
      have hxb : x ≤ b := Nat.not_lt.mp hbx
      rcases ih b bi (i + 1) with ⟨heq, hall⟩ | ⟨k, hk, heq, hlt, hmax, hfirst⟩
      · left
        refine ⟨by rw [hstep, heq], ?_⟩
        intro y hy
        rcases List.mem_cons.mp hy with h | h
        · omega
        · exact hall y h
      · right
        refine ⟨k + 1, by simpa using hk, ?_, ?_, ?_, ?_⟩
        · rw [hstep, heq]; omega
        · simpa using hlt
        · intro m hm
          cases m with
          | zero => simpa using le_trans hxb (le_of_lt hlt)
          | succ m => simpa using hmax m (by simpa using hm)
        · intro m hm
          cases m with
          | zero => simpa using lt_of_le_of_lt hxb hlt
          | succ m => simpa using hfirst m (by omega)

/-- The argmax of a nonempty list is in bounds, attains the maximum, and
    every earlier entry is strictly smaller. -/
theorem argmaxIdx_spec (c : List Nat) (hc : c ≠ []) :
    argmaxIdx c < c.length
    ∧ (∀ m, m < c.length → c.getD m 0 ≤ c.getD (argmaxIdx c) 0)
    ∧ (∀ m, m < argmaxIdx c → c.getD m 0 < c.getD (argmaxIdx c) 0) := by
  cases c with
  | nil => exact absurd rfl hc
  | cons x xs =>
    have hstep : argmaxIdx (x :: xs) = argmaxAux x 0 1 xs := rfl
    rcases argmaxAux_spec xs x 0 1 with ⟨heq, hall⟩ | ⟨k, hk, heq, hlt, hmax, hfirst⟩
    · rw [hstep, heq]
      refine ⟨by simp, ?_, ?_⟩
      · intro m hm
        cases m with
        | zero => simp
        | succ m =>
          simp only [List.getD_cons_succ, List.getD_cons_zero]
          exact hall _ (getD_mem xs m (by simpa using hm))
      · intro m hm
        exact absurd hm (Nat.not_lt_zero m)
    · have h1k : 1 + k = k + 1 := by omega
      rw [hstep, heq, h1k]
      refine ⟨by simpa using hk, ?_, ?_⟩
      · intro m hm
        cases m with
        | zero => simpa using le_of_lt hlt
        | succ m => simpa using hmax m (by simpa using hm)
      · intro m hm
        cases m with
        | zero => simpa using hlt
        | succ m => simpa using hfirst m (by omega)

/-- The selected background occurs in the list. -/
theorem bgSelect_mem (l : List Nat) (hl : l ≠ []) : bgSelect l ∈ l := by
  have hc : (np_unique l).map (fun v => l.count v) ≠ [] := by
    simpa using np_unique_ne_nil l hl
  obtain ⟨hi, hmax, hfirst⟩ := argmaxIdx_spec _ hc
  have hi' : argmaxIdx ((np_unique l).map (fun v => l.count v)) < (np_unique l).length := by
    simpa using hi
  exact (np_unique_mem l _).mp (getD_mem _ _ hi')

/-- The selected background attains the maximal occurrence count. -/
theorem bgSelect_count_max (l : List Nat) (v : Nat) (hv : v ∈ l) :
    l.count v ≤ l.count (bgSelect l) := by
  have hl : l ≠ [] := by intro h; rw [h] at hv; simp at hv
  have hc : (np_unique l).map (fun w => l.count w) ≠ [] := by
    simpa using np_unique_ne_nil l hl
  obtain ⟨hi, hmax, hfirst⟩ := argmaxIdx_spec _ hc
  have hi' : argmaxIdx ((np_unique l).map (fun w => l.count w)) < (np_unique l).length := by
    simpa using hi
  obtain ⟨j, hj, hju⟩ := mem_getD (np_unique l) v ((np_unique_mem l v).mpr hv)
  have hle := hmax j (by simpa using hj)
  rw [count_map_getD l (np_unique l) j hj, hju,
    count_map_getD l (np_unique l) _ hi'] at hle
  exact hle

/-- Among the values attaining the maximal count, the selected background
    is the numerically smallest. -/
theorem bgSelect_min_of_max (l : List Nat) (v : Nat) (hv : v ∈ l)
    (hcnt : l.count v = l.count (bgSelect l)) : bgSelect l ≤ v := by
  have hl : l ≠ [] := by intro h; rw [h] at hv; simp at hv
  have hbgdef : bgSelect l
      = (np_unique l).getD (argmaxIdx ((np_unique l).map (fun w => l.count w))) 0 := rfl
  rw [hbgdef] at hcnt ⊢
  have hc : (np_unique l).map (fun w => l.count w) ≠ [] := by
    simpa using np_unique_ne_nil l hl
  obtain ⟨hi, hmax, hfirst⟩ := argmaxIdx_spec _ hc
  have hi' : argmaxIdx ((np_unique l).map (fun w => l.count w)) < (np_unique l).length := by
    simpa using hi
  obtain ⟨j, hj, hju⟩ := mem_getD (np_unique l) v ((np_unique_mem l v).mpr hv)
  have hnj : ¬ j < argmaxIdx ((np_unique l).map (fun w => l.count w)) := by
    intro hlt
    have hstrict := hfirst j hlt
    rw [count_map_getD l (np_unique l) j hj, hju,
      count_map_getD l (np_unique l) _ hi'] at hstrict
    omega
  have hle : (np_unique l).getD (argmaxIdx ((np_unique l).map (fun w => l.count w))) 0
      ≤ (np_unique l).getD j 0 :=
    sorted_getD_le (np_unique l) (np_unique_sorted l) _ j (by omega) hj
  rw [hju] at hle
  exact hle

/- ----------------------------------------------------------------- -/
/- Round trip machinery for one full page.                            -/
/- ----------------------------------------------------------------- -/

theorem digit_recombine (v : Nat) (h : v < 4294967296) :
    v / 16777216 % 256 * 16777216 + v / 65536 % 256 * 65536 + v / 256 % 256 * 256 + v % 256
      = v := by omega

theorem applyWrites_write (slots : List Nat) (i a b c d : Nat) (t : List Nat) :
    applyWrites slots (4 :: i :: a :: b :: c :: d :: t)
      = applyWrites (slots.set i (a * 16777216 + b * 65536 + c * 256 + d)) t := rfl

theorem applyWrites_stop (slots : List Nat) (t : List Nat) :
    applyWrites slots (2 :: t) = slots := rfl

theorem pack2_lt (a b : Nat) (hb : b < 4294967296) : pack2 a b < 4294967296 := by
  have h32 : (4294967296 : Nat) = 2 ^ 32 := by norm_num
  unfold pack2
  rw [h32] at hb ⊢
  exact Nat.or_lt_two_pow (Nat.mod_lt _ (by norm_num)) hb

theorem pack_pairs_lt : ∀ l : List Nat, (∀ x ∈ l, x < 4294967296) →
    ∀ v ∈ pack_pairs l, v < 4294967296
  | [] => by intro _ v hv; simp [pack_pairs] at hv
  | [_] => by intro _ v hv; simp [pack_pairs] at hv
  | a :: b :: r => by
      intro hall v hv
      simp only [pack_pairs, List.mem_cons] at hv
      rcases hv with hv | hv
      · rw [hv]
        exact pack2_lt a b (hall b (by simp))
      · exact pack_pairs_lt r (fun x hx => hall x (by simp [hx])) v hv

/-- Applying the decoder to the write command block of a full page is the
    sequential overwrite of the differing entries. -/
theorem applyWrites_writeCmds : ∀ (l : List Nat) (bg k : Nat) (slots rest : List Nat),
    (∀ v ∈ l, v < 4294967296) →
    applyWrites slots (writeCmds bg k l ++ rest)
      = applyWrites (updSeq slots k bg l) rest := by
  intro l
  induction l with
  | nil => intro bg k slots rest _; rfl
  | cons v r ih =>
    intro bg k slots rest hall
    have hr : ∀ x ∈ r, x < 4294967296 := fun x hx => hall x (by simp [hx])
    by_cases hv : v = bg
    · have h1 : writeCmds bg k (v :: r) = writeCmds bg (k + 1) r := by
        simp [writeCmds, hv]
      have h2 : updSeq slots k bg (v :: r) = updSeq slots (k + 1) bg r := by
        simp [updSeq, hv]
      rw [h1, h2]
      exact ih bg (k + 1) slots rest hr
    · have hv32 : v < 4294967296 := hall v (by simp)
      have h1 : writeCmds bg k (v :: r)
          = 4 :: k :: (v / 16777216 % 256) :: (v / 65536 % 256) :: (v / 256 % 256)
              :: (v % 256) :: writeCmds bg (k + 1) r := by
        simp [writeCmds, hv, digit_to_ints]
      have h2 : updSeq slots k bg (v :: r) = updSeq (slots.set k v) (k + 1) bg r := by
        simp [updSeq, hv]
      rw [h1, h2]
      show applyWrites slots
          (4 :: k :: (v / 16777216 % 256) :: (v / 65536 % 256) :: (v / 256 % 256)
            :: (v % 256) :: (writeCmds bg (k + 1) r ++ rest)) = _
      rw [applyWrites_write, digit_recombine v hv32]
      exact ih bg (k + 1) (slots.set k v) rest hr

/-- The sequential overwrite of a background filled slot segment restores
    the original entries. -/
theorem updSeq_replicate : ∀ (l : List Nat) (k bg : Nat) (slots : List Nat),
    slots.length = k + l.length →
    slots.drop k = List.replicate l.length bg →
    updSeq slots k bg l = slots.take k ++ l := by
  intro l
  induction l with
  | nil =>
    intro k bg slots hlen _
    show slots = slots.take k ++ []
    rw [List.append_nil, List.take_of_length_le (by simp at hlen; omega)]
  | cons v r ih =>
    intro k bg slots hlen hdrop
    have hlen2 : slots.length = k + (r.length + 1) := by simpa using hlen
    have hk : k < slots.length := by omega
    rw [List.length_cons, List.replicate_succ] at hdrop
    have hget : slots[k]? = some bg := by
      have h0 : (slots.drop k)[0]? = some bg := by rw [hdrop]; simp
      rw [List.getElem?_drop] at h0
      simpa using h0
    have hd1 : slots.drop (k + 1) = List.replicate r.length bg := by
      have hdd : (slots.drop k).drop 1 = slots.drop (k + 1) := by
        rw [List.drop_drop]
      rw [← hdd, hdrop]
      rfl
    by_cases hv : v = bg
    · have hstep : updSeq slots k bg (v :: r) = updSeq slots (k + 1) bg r := by
        simp [updSeq, hv]
      rw [hstep, ih (k + 1) bg slots (by omega) hd1]
      have htake : slots.take (k + 1) = slots.take k ++ [bg] := by
        rw [List.take_succ, hget]
        rfl
      rw [htake, hv, List.append_assoc]
      rfl
    · have hstep : updSeq slots k bg (v :: r) = updSeq (slots.set k v) (k + 1) bg r := by
        simp [updSeq, hv]
      have hslen : (slots.take k).length = k := by
        rw [List.length_take]
        omega
      have hset : slots.set k v = slots.take k ++ v :: slots.drop (k + 1) :=
        List.set_eq_take_cons_drop v hk
      have hlen3 : (slots.set k v).length = (k + 1) + r.length := by
        rw [List.length_set]
        omega
      have hd2 : (slots.set k v).drop (k + 1) = List.replicate r.length bg := by
        rw [hset, List.drop_append_eq_append_drop, hslen]
        have hnil : (slots.take k).drop (k + 1) = [] :=
          List.drop_eq_nil_of_le (by omega)
        rw [hnil]
        have hone : k + 1 - k = 1 := by omega
        rw [hone]
        simpa using hd1
      rw [hstep, ih (k + 1) bg (slots.set k v) hlen3 hd2]
      have ht : (slots.set k v).take (k + 1) = slots.take k ++ [v] := by
        rw [hset, List.take_append_eq_append_take, hslen]
        have hone : k + 1 - k = 1 := by omega
        rw [hone, List.take_of_length_le (by omega)]
        rfl
      rw [ht, List.append_assoc]
      rfl

theorem updSeq_replicate_full (cmp : List Nat) (bg : Nat) (hlen : cmp.length = 64) :
    updSeq (List.replicate 64 bg) 0 bg cmp = cmp := by
  have h := updSeq_replicate cmp 0 bg (List.replicate 64 bg)
    (by simp [hlen]) (by simp [hlen])
  simpa using h

theorem decodePage_cons (a b c d : Nat) (t : List Nat) :
    decodePage (2 :: 4 :: a :: b :: c :: d :: t)
      = some (applyWrites (List.replicate 64 (a * 16777216 + b * 65536 + c * 256 + d)) t) :=
  rfl

theorem encodeFullPage_take6 (page : List Nat) :
    (encodeFullPage page).take 6
      = 2 :: 4 :: digit_to_ints (bgSelect (pack_pairs page)) := rfl

/- ----------------------------------------------------------------- -/
/- Claim C7.                                                          -/
/- ----------------------------------------------------------------- -/

/-- Claim C7: for every full 128 entry page, decoding the emitted stream -
    fill the 64 packed slots with the fill background value, then apply
    every write command - reproduces the packed pixel pair values of the
    page exactly. -/
theorem C7_roundtrip (page : List Nat) (hlen : page.length = 128)
    (hb : ∀ x ∈ page, x < 4294967296) :
    decodePage (Screen_Date_Process page) = some (pack_pairs page) := by
  have h1 : page.length % 128 = 0 := by rw [hlen]
  have h2 : page.length / 128 = 1 := by rw [hlen]
  have hSDP : Screen_Date_Process page = encodeFullPage page := by
    rw [SDP_multiple page h1, h2]
    show encodeFullPage (page.take 128) ++ SDP_pages 0 (page.drop 128) = _
    rw [List.take_of_length_le (le_of_eq hlen)]
    simp [SDP_pages]
  have hclen : (pack_pairs page).length = 64 := by
    rw [pack_pairs_length, hlen]
  have hcne : pack_pairs page ≠ [] := by
    intro hnil
    rw [hnil] at hclen
    simp at hclen
  have hbg32 : bgSelect (pack_pairs page) < 4294967296 :=
    pack_pairs_lt page hb _ (bgSelect_mem _ hcne)
  have hstream : encodeFullPage page
      = 2 :: 4 :: (bgSelect (pack_pairs page) / 16777216 % 256)
          :: (bgSelect (pack_pairs page) / 65536 % 256)
          :: (bgSelect (pack_pairs page) / 256 % 256)
          :: (bgSelect (pack_pairs page) % 256)
          :: (writeCmds (bgSelect (pack_pairs page)) 0 (pack_pairs page)
              ++ [2, 3, 8, 1, 0, 0]) := rfl
  rw [hSDP, hstream, decodePage_cons, digit_recombine _ hbg32,
    applyWrites_writeCmds (pack_pairs page) _ 0 _ _ (pack_pairs_lt page hb),
    applyWrites_stop, updSeq_replicate_full _ _ hclen]

theorem C7_roundtrip_witness :
    decodePage (Screen_Date_Process (List.replicate 126 7 ++ [9, 9]))
      = some (pack_pairs (List.replicate 126 7 ++ [9, 9])) :=
  C7_roundtrip (List.replicate 126 7 ++ [9, 9]) (by decide) (by decide)

/- ----------------------------------------------------------------- -/
/- Claim C8.                                                          -/
/- ----------------------------------------------------------------- -/

/-- Claim C8: when one packed value V occurs strictly more often than
    every other packed value of the page, the encoder selects V as the
    background and the fill background command carries V. -/
theorem C8_majority (page : List Nat) (V : Nat) (_hlen : page.length = 128)
    (hV : V ∈ pack_pairs page)
    (hmaj : ∀ u ∈ pack_pairs page, u ≠ V →
      (pack_pairs page).count u < (pack_pairs page).count V) :
    bgSelect (pack_pairs page) = V
    ∧ (encodeFullPage page).take 6 = 2 :: 4 :: digit_to_ints V := by
  have hne : pack_pairs page ≠ [] := by
    intro h
    rw [h] at hV
    simp at hV
  have heq : bgSelect (pack_pairs page) = V := by
    by_contra hneq
    have hlt := hmaj _ (bgSelect_mem _ hne) hneq
    have hge := bgSelect_count_max (pack_pairs page) V hV
    omega
  exact ⟨heq, by rw [encodeFullPage_take6, heq]⟩

theorem C8_majority_witness :
    bgSelect (pack_pairs (List.replicate 126 5 ++ [7, 7])) = 327685
    ∧ (encodeFullPage (List.replicate 126 5 ++ [7, 7])).take 6
        = 2 :: 4 :: digit_to_ints 327685 :=
  C8_majority (List.replicate 126 5 ++ [7, 7]) 327685 (by decide) (by decide) (by decide)

/- ----------------------------------------------------------------- -/
/- Claim C10.                                                         -/
/- ----------------------------------------------------------------- -/

/-- Claim C10: the encoder background choice is deterministic with the
    tie break of np.unique plus argmax: the selected value occurs in the
    page, attains the maximal occurrence count, and is the numerically
    smallest among the packed values attaining that count; the fill
    background command carries exactly this value. -/
theorem C10_tiebreak (page : List Nat) (hlen : page.length = 128) :
    bgSelect (pack_pairs page) ∈ pack_pairs page
    ∧ (∀ v ∈ pack_pairs page,
        (pack_pairs page).count v ≤ (pack_pairs page).count (bgSelect (pack_pairs page)))
    ∧ (∀ v ∈ pack_pairs page,
        (pack_pairs page).count v = (pack_pairs page).count (bgSelect (pack_pairs page)) →
        bgSelect (pack_pairs page) ≤ v)
    ∧ (encodeFullPage page).take 6
        = 2 :: 4 :: digit_to_ints (bgSelect (pack_pairs page)) := by
  have hclen : (pack_pairs page).length = 64 := by
    rw [pack_pairs_length, hlen]
  have hne : pack_pairs page ≠ [] := by
    intro h
    rw [h] at hclen
    simp at hclen
  exact ⟨bgSelect_mem _ hne, fun v hv => bgSelect_count_max _ v hv,
    fun v hv hc => bgSelect_min_of_max _ v hv hc, encodeFullPage_take6 page⟩

theorem C10_tiebreak_witness :
    bgSelect (pack_pairs (List.replicate 64 1 ++ List.replicate 64 2))
        ∈ pack_pairs (List.replicate 64 1 ++ List.replicate 64 2)
    ∧ (∀ v ∈ pack_pairs (List.replicate 64 1 ++ List.replicate 64 2),
        (pack_pairs (List.replicate 64 1 ++ List.replicate 64 2)).count v
          ≤ (pack_pairs (List.replicate 64 1 ++ List.replicate 64 2)).count
              (bgSelect (pack_pairs (List.replicate 64 1 ++ List.replicate 64 2))))
    ∧ (∀ v ∈ pack_pairs (List.replicate 64 1 ++ List.replicate 64 2),
        (pack_pairs (List.replicate 64 1 ++ List.replicate 64 2)).count v
          = (pack_pairs (List.replicate 64 1 ++ List.replicate 64 2)).count
              (bgSelect (pack_pairs (List.replicate 64 1 ++ List.replicate 64 2))) →
        bgSelect (pack_pairs (List.replicate 64 1 ++ List.replicate 64 2)) ≤ v)
    ∧ (encodeFullPage (List.replicate 64 1 ++ List.replicate 64 2)).take 6
        = 2 :: 4 :: digit_to_ints
            (bgSelect (pack_pairs (List.replicate 64 1 ++ List.replicate 64 2))) :=
  C10_tiebreak (List.replicate 64 1 ++ List.replicate 64 2) (by decide)

end MSU2
